import Mathlib

/-!
Shallow embedding of `scripts/sync_blog.py`: an RSS → static-site sync
pipeline (fetch → parse → merge → render).  Python dicts are modelled as
insertion-ordered association lists, the conditional file writes of the
script as an explicit `RunEffects` record, and the `datetime.strptime`
call as an executable parser for the one fixed format the script uses.
-/

namespace SyncBlog

/-! ### Configuration constants (lines 8-12 of the script) -/

def BLOG_ID : String := "joecool00"

def RSS_URL : String := "https://rss.blog.naver.com/" ++ BLOG_ID

def CATEGORY_FILTER : String := "AI Mind"

/-! ### Data model

A parsed feed item (the dict built in `parse_rss`) and a stored post (the
dict value stored in `posts[item["id"]]` by `update_data`).  The durable
record `data/posts.json` is a JSON object, i.e. an insertion-ordered map
from id to post; we model it as an association list with unique keys where
a fresh insertion appends at the end, exactly like a Python dict. -/

structure Item where
  id : String
  title : String
  link : String
  category : String
  date : String
deriving Repr, DecidableEq

structure Post where
  title : String
  link : String
  date : String
  category : String
deriving Repr, DecidableEq

abbrev Record := List (String × Post)

/-- `k in posts` for the modelled dict. -/
def hasKey (r : Record) (k : String) : Bool :=
  r.any (fun e => e.1 == k)

/-- `posts[k]` lookup (first match; keys are unique in a dict). -/
def lookup : Record → String → Option Post
  | [], _ => none
  | e :: r, k => if e.1 == k then some e.2 else lookup r k

/-! ### Feed Fetcher (`fetch_rss`, lines 14-19)

The HTTP response is abstracted as its status code and body.  The script
returns the body only when the status is exactly 200; otherwise it prints
a diagnostic and returns `None`. -/

def fetch_rss (status : Nat) (body : String) : Option String × List String :=
  if status ≠ 200 then (none, ["Failed to fetch RSS: " ++ toString status])
  else (some body, [])

/-! ### Feed Parser (`parse_rss`, lines 21-50)

XML extraction is abstracted: a `RawItem` holds the text of the `title`,
`link`, optional `category` and `pubDate` elements of one `<item>`. -/

structure RawItem where
  title : String
  link : String
  category : Option String
  pubDate : String
deriving Repr, DecidableEq

/-- Strip `sep` from the front of `s`, when it is there. -/
def takeDropSep : List Char → List Char → Option (List Char)
  | [], s => some s
  | _ :: _, [] => none
  | c :: cs, d :: ds => if c = d then takeDropSep cs ds else none

/-- Python's `str.split(sep)` for a non-empty separator: scan left to
right, cutting at each non-overlapping occurrence of `sep`.  Implemented
structurally over the character list (with fuel bounded by the input
length) so that it evaluates by kernel reduction; each step consumes at
least one character, so the fuel never runs out. -/
def splitCore (sep : List Char) : Nat → List Char → List Char → List (List Char)
  | 0, cur, _ => [cur.reverse]
  | fuel + 1, cur, s =>
    match takeDropSep sep s with
    | some remainder => cur.reverse :: splitCore sep fuel [] remainder
    | none =>
      match s with
      | [] => [cur.reverse]
      | c :: rest => splitCore sep fuel (c :: cur) rest

def pySplit (s sep : String) : List String :=
  (splitCore sep.data (s.data.length + 1) [] s.data).map String.mk

/-- `link.split("/")[-1].split("?")[0]` (line 32).  `str.split` on a
non-empty separator always yields a non-empty list, so the defaults of
`getLastD`/`headD` are never used. -/
def extract_post_id (link : String) : String :=
  (pySplit ((pySplit link "/").getLastD "") "?").headD ""

/-- Model of `datetime.strptime(s, "%a, %d %b %Y %H:%M:%S %z")` followed by
validation, keeping only the fields `strftime("%Y-%m-%d")` uses.  The
embedding fixes the canonical single-space separation of the format.
`%a`/`%b` match abbreviated names case-insensitively, `%Y` is exactly four
digits, `%d`/`%H`/`%M`/`%S` are one or two digits, and constructing the
`datetime` validates the ranges (day within the month, seconds ≤ 59, year
≥ 1, UTC offset strictly less than 24 hours). -/
def weekdayAbbrs : List String := ["mon", "tue", "wed", "thu", "fri", "sat", "sun"]

def monthAbbrs : List String :=
  ["jan", "feb", "mar", "apr", "may", "jun", "jul", "aug", "sep", "oct", "nov", "dec"]

def isLeapYear (y : Nat) : Bool :=
  (y % 4 == 0 && y % 100 != 0) || y % 400 == 0

def daysInMonth (y m : Nat) : Nat :=
  if m = 2 then (if isLeapYear y then 29 else 28)
  else if m = 4 ∨ m = 6 ∨ m = 9 ∨ m = 11 then 30
  else 31

/-- The value of a non-empty all-digit string (what `int()` accepts after
`strptime`'s digit regex). -/
def digitsToNat? (l : List Char) : Option Nat :=
  if l ≠ [] ∧ l.all Char.isDigit then
    some (l.foldl (fun n c => n * 10 + (c.toNat - 48)) 0)
  else none

/-- A run of digits of bounded length, as `strptime`'s regex admits. -/
def natField (s : String) (minLen maxLen : Nat) : Option Nat :=
  if minLen ≤ s.data.length ∧ s.data.length ≤ maxLen then digitsToNat? s.data else none

/-- ASCII lower-casing, as the case-insensitive name matching needs. -/
def lowerStr (s : String) : String :=
  String.mk (s.data.map Char.toLower)

/-- `%z`: `Z`, `±HHMM` or `±HH:MM`, with total offset under 24 hours. -/
def validOffset (s : String) : Bool :=
  if s = "Z" then true
  else
    match s.data with
    | [] => false
    | sign :: rest =>
      let rest := if rest.length == 5 && (rest.drop 2).headD ' ' == ':' then
          rest.take 2 ++ rest.drop 3
        else rest
      (sign == '+' || sign == '-') && rest.length == 4 &&
        (match digitsToNat? rest with
         | some v => decide ((v / 100) * 60 + v % 100 < 1440)
         | none => false)

def strptime_pub_date (s : String) : Option (Nat × Nat × Nat) :=
  match pySplit s " " with
  | [wdPart, dayS, monS, yearS, timeS, tzS] =>
    if (wdPart.data.getLast? == some ',') &&
        weekdayAbbrs.contains (lowerStr (String.mk wdPart.data.dropLast)) then
      match monthAbbrs.findIdx? (fun m => m == lowerStr monS), pySplit timeS ":" with
      | some monIdx, [hS, mS, secS] =>
        match natField dayS 1 2, natField yearS 4 4, natField hS 1 2,
              natField mS 1 2, natField secS 1 2 with
        | some day, some year, some hour, some minute, some second =>
          if 1 ≤ year ∧ 1 ≤ day ∧ day ≤ daysInMonth year (monIdx + 1) ∧
              hour ≤ 23 ∧ minute ≤ 59 ∧ second ≤ 59 ∧ validOffset tzS then
            some (year, monIdx + 1, day)
          else none
        | _, _, _, _, _ => none
      | _, _ => none
    else none
  | _ => none

def padZeros (width n : Nat) : String :=
  let s := toString n
  String.mk (List.replicate (width - s.length) '0') ++ s

/-- `date_obj.strftime("%Y-%m-%d")` on the fields kept by the model. -/
def format_ymd (y m d : Nat) : String :=
  padZeros 4 y ++ "-" ++ padZeros 2 m ++ "-" ++ padZeros 2 d

/-- One iteration of the `parse_rss` loop (lines 24-49). -/
def parse_item (it : RawItem) : Item :=
  let post_id := extract_post_id it.link
  let clean_link := "https://m.blog.naver.com/" ++ BLOG_ID ++ "/" ++ post_id
  let formatted_date :=
    match strptime_pub_date it.pubDate with
    | some (y, m, d) => format_ymd y m d
    | none => it.pubDate
  { id := post_id, title := it.title, link := clean_link,
    category := it.category.getD "", date := formatted_date }

def parse_rss (items : List RawItem) : List Item :=
  items.map parse_item

/-! ### Post Store Merger (`update_data`, lines 52-76)

The file load/save is lifted out: `update_data` here is the pure merge of
the loop body; the conditional write appears in `runMain` below.  `added`
records the `Added new post: ...` lines in print order. -/

def Item.toPost (it : Item) : Post :=
  { title := it.title, link := it.link, date := it.date, category := it.category }

structure UpdateAcc where
  posts : Record
  updated : Bool
  added : List String
deriving Repr, DecidableEq

def updateStep (acc : UpdateAcc) (item : Item) : UpdateAcc :=
  if item.category == CATEGORY_FILTER then
    if hasKey acc.posts item.id then acc
    else
      { posts := acc.posts ++ [(item.id, item.toPost)]
        updated := true
        added := acc.added ++ ["Added new post: " ++ item.title] }
  else acc

def update_data (posts : Record) (new_items : List Item) : UpdateAcc :=
  new_items.foldl updateStep { posts := posts, updated := false, added := [] }

/-! ### Title Rewriter (`clean_title`, lines 78-102) -/

def knownHeads : List String :=
  ["AI - ", "AI | ", "국내: ", "구글 - ", "⚡️ 퀵메모 - "]

/-- The `for p in prefixes: if cleaned.startswith(p): ...; break` loop. -/
def removeFirstHead : List String → String → String
  | [], s => s
  | p :: ps, s => if s.startsWith p then s.drop p.length else removeFirstHead ps s

def transformations : List (String × String) :=
  [("수업 요약 노트", "핵심 요약 가이드"),
   ("사용기", "실제 활용 팁과 후기"),
   ("정리", "올인원 가이드"),
   ("트렌드", "최신 트렌드 분석")]

/-- Python's `key in cleaned` substring test, for a non-empty `key`:
`str.split` produces more than one part exactly when the separator
occurs. -/
def containsStr (s pat : String) : Bool :=
  (pySplit s pat).length > 1

def clean_title (title : String) : String :=
  let cleaned := removeFirstHead knownHeads title
  let cleaned := if cleaned.length < 15 then cleaned ++ " | AI 인사이트" else cleaned
  transformations.foldl
    (fun s kv => if containsStr s kv.1 then s.replace kv.1 kv.2 else s) cleaned

/-! ### Page Renderer (`generate_html`, lines 104-183)

`sorted(posts.items(), key=sort_key, reverse=True)` is a stable sort by
the key tuple `(date, id)` in descending order, where Python compares the
tuples lexicographically and the strings by code points — exactly
Mathlib's linear order on `String`.  A stable descending sort is
`mergeSort` with `le a b := sort_key b ≤ sort_key a` (lexicographically).
The rendered page is modelled by the list of post cards and the list of
structured-data (JSON-LD) entries, in page order. -/

def sort_key (e : String × Post) : String × String :=
  let date := e.2.date
  let date := if date == "Legacy Post" then "2024-01-01" else date
  (date, e.1)

/-- Lexicographic `≤` on the key tuples, as a Bool. -/
def keyLe (p q : String × String) : Bool :=
  decide (p.1 < q.1) || (p.1 == q.1 && decide (p.2 ≤ q.2))

/-- The merge-sort comparison realising `reverse=True`. -/
def descLe (a b : String × Post) : Bool :=
  keyLe (sort_key b) (sort_key a)

structure Card where
  date : String
  displayTitle : String
  link : String
deriving Repr, DecidableEq

structure JsonLdItem where
  headline : String
  url : String
  datePublished : String
deriving Repr, DecidableEq

structure HtmlOutput where
  sortedEntries : List (String × Post)
  cards : List Card
  jsonLd : List JsonLdItem
deriving Repr, DecidableEq

def generate_html (posts : Record) : HtmlOutput :=
  let sorted_posts := posts.mergeSort descLe
  { sortedEntries := sorted_posts
    cards := sorted_posts.map (fun e =>
      { date := e.2.date
        displayTitle := clean_title e.2.title
        link := e.2.link })
    jsonLd := sorted_posts.map (fun e =>
      { headline := e.2.title
        url := e.2.link
        datePublished := if e.2.date == "Legacy Post" then "2024-01-01" else e.2.date }) }

/-! ### Main entry point (lines 198-206)

The run's observable effects.  `dataWrite` is the content written to
`data/posts.json` by `update_data` (only when an insertion occurred),
`htmlWrite` the regenerated page, `sitemapWrite` whether `sitemap.xml`
was overwritten.  `fetchResult` is the value of `xml_data`; `parse`
stands for `parse_rss` applied to the raw bytes.  Python's `if xml_data:`
is falsy both for `None` and for an empty byte string. -/

structure RunEffects where
  printedStart : Bool
  dataWrite : Option Record
  htmlWrite : Option HtmlOutput
  sitemapWrite : Bool
  printedAdded : List String
  printedCompletion : Bool
deriving Repr, DecidableEq

def runMain (fetchResult : Option String) (parse : String → List Item)
    (existing : Record) : RunEffects :=
  match fetchResult with
  | none =>
    { printedStart := true, dataWrite := none, htmlWrite := none,
      sitemapWrite := false, printedAdded := [], printedCompletion := false }
  | some xml =>
    if xml == "" then
      { printedStart := true, dataWrite := none, htmlWrite := none,
        sitemapWrite := false, printedAdded := [], printedCompletion := false }
    else
      let items := parse xml
      let res := update_data existing items
      { printedStart := true
        dataWrite := if res.updated then some res.posts else none
        htmlWrite := some (generate_html res.posts)
        sitemapWrite := true
        printedAdded := res.added
        printedCompletion := true }

/-! ### Helper lemmas about the modelled dict and the merger -/

theorem lookup_append (l t : Record) (k : String) :
    lookup (l ++ t) k = (lookup l k <|> lookup t k) := by
  induction l with
  | nil => simp [lookup]
  | cons e r ih =>
    cases h : e.1 == k <;> simp [lookup, h, ih]

theorem isSome_lookup (r : Record) (k : String) :
    (lookup r k).isSome = hasKey r k := by
  induction r with
  | nil => simp [lookup, hasKey]
  | cons e r ih =>
    cases h : e.1 == k
    · simp only [lookup, h, Bool.false_eq_true, if_false]
      simpa [hasKey, h] using ih
    · simp [lookup, hasKey, h]

theorem updateStep_shape (acc : UpdateAcc) (it : Item) :
    ∃ new : List (String × Post),
      updateStep acc it =
        { posts := acc.posts ++ new
          updated := acc.updated || !new.isEmpty
          added := acc.added ++ new.map (fun e => "Added new post: " ++ e.2.title) } := by
  unfold updateStep
  cases h1 : (it.category == CATEGORY_FILTER) with
  | false => exact ⟨[], by simp⟩
  | true =>
    cases h2 : hasKey acc.posts it.id with
    | true => exact ⟨[], by simp [h2]⟩
    | false => exact ⟨[(it.id, it.toPost)], by simp [h2, Item.toPost]⟩

theorem foldl_updateStep_shape : ∀ (items : List Item) (acc : UpdateAcc),
    ∃ new : List (String × Post),
      items.foldl updateStep acc =
        { posts := acc.posts ++ new
          updated := acc.updated || !new.isEmpty
          added := acc.added ++ new.map (fun e => "Added new post: " ++ e.2.title) }
  | [], acc => ⟨[], by simp⟩
  | it :: rest, acc => by
    obtain ⟨n1, h1⟩ := updateStep_shape acc it
    obtain ⟨n2, h2⟩ := foldl_updateStep_shape rest (updateStep acc it)
    refine ⟨n1 ++ n2, ?_⟩
    rw [List.foldl_cons, h2, h1]
    cases n1 <;> simp [Bool.or_assoc]

theorem hasKey_foldl_mono (items : List Item) (acc : UpdateAcc) (k : String)
    (h : hasKey acc.posts k = true) :
    hasKey ((items.foldl updateStep acc).posts) k = true := by
  obtain ⟨new, hs⟩ := foldl_updateStep_shape items acc
  rw [hs]
  simp only [hasKey, List.any_append] at h ⊢
  simp [h]

theorem hasKey_updateStep_self (acc : UpdateAcc) (it : Item)
    (hcat : it.category = CATEGORY_FILTER) :
    hasKey ((updateStep acc it).posts) it.id = true := by
  have h1 : (it.category == CATEGORY_FILTER) = true := beq_iff_eq.mpr hcat
  unfold updateStep
  rw [if_pos h1]
  cases h2 : hasKey acc.posts it.id with
  | true => simpa using h2
  | false => simp [hasKey, List.any_append]

theorem hasKey_foldl_of_mem : ∀ (items : List Item) (acc : UpdateAcc) (it : Item),
    it ∈ items → it.category = CATEGORY_FILTER →
    hasKey ((items.foldl updateStep acc).posts) it.id = true
  | [], _, _, hmem, _ => by cases hmem
  | hd :: rest, acc, it, hmem, hcat => by
    rw [List.foldl_cons]
    rcases List.mem_cons.mp hmem with heq | hrest
    · subst heq
      exact hasKey_foldl_mono rest _ _ (hasKey_updateStep_self acc it hcat)
    · exact hasKey_foldl_of_mem rest (updateStep acc hd) it hrest hcat

theorem foldl_updateStep_noop : ∀ (items : List Item) (acc : UpdateAcc),
    (∀ it ∈ items, it.category = CATEGORY_FILTER → hasKey acc.posts it.id = true) →
    items.foldl updateStep acc = acc
  | [], _, _ => rfl
  | hd :: rest, acc, h => by
    have hstep : updateStep acc hd = acc := by
      cases hc : (hd.category == CATEGORY_FILTER) with
      | false => simp [updateStep, hc]
      | true =>
        have := h hd (List.mem_cons_self hd rest) (beq_iff_eq.mp hc)
        simp [updateStep, hc, this]
    rw [List.foldl_cons, hstep]
    exact foldl_updateStep_noop rest acc (fun it hm hc => h it (List.mem_cons_of_mem _ hm) hc)

theorem lookup_foldl_updateStep : ∀ (items : List Item) (acc : UpdateAcc) (k : String),
    lookup ((items.foldl updateStep acc).posts) k =
      (lookup acc.posts k <|>
        (items.find? (fun it => it.id == k && it.category == CATEGORY_FILTER)).map Item.toPost)
  | [], acc, k => by simp
  | it :: rest, acc, k => by
    rw [List.foldl_cons, lookup_foldl_updateStep rest (updateStep acc it) k]
    cases hc : (it.category == CATEGORY_FILTER) with
    | false =>
      have hstep : updateStep acc it = acc := by simp [updateStep, hc]
      rw [hstep, List.find?_cons_of_neg _ (by simp [hc])]
    | true =>
      cases hk : hasKey acc.posts it.id with
      | true =>
        have hstep : updateStep acc it = acc := by simp [updateStep, hc, hk]
        cases hik : (it.id == k) with
        | false => rw [hstep, List.find?_cons_of_neg _ (by simp [hik])]
        | true =>
          have hkk : hasKey acc.posts k = true := by
            rw [← beq_iff_eq.mp hik]; exact hk
          obtain ⟨v, hv⟩ : ∃ v, lookup acc.posts k = some v := by
            have hs := isSome_lookup acc.posts k
            rw [hkk] at hs
            exact Option.isSome_iff_exists.mp hs
          rw [hstep, List.find?_cons_of_pos _ (by simp [hik, hc]), hv]
          simp
      | false =>
        have hstep : updateStep acc it =
            { posts := acc.posts ++ [(it.id, it.toPost)]
              updated := true
              added := acc.added ++ ["Added new post: " ++ it.title] } := by
          simp [updateStep, hc, hk]
        rw [hstep]
        simp only
        rw [lookup_append]
        cases hik : (it.id == k) with
        | true =>
          have heq : it.id = k := beq_iff_eq.mp hik
          subst heq
          have hnone : lookup acc.posts it.id = none := by
            have hs := isSome_lookup acc.posts it.id
            rw [hk] at hs
            exact Option.not_isSome_iff_eq_none.mp (by simp [hs])
          rw [hnone, List.find?_cons_of_pos _ (by simp [hik, hc])]
          simp [lookup, hik]
        | false =>
          have hone : lookup [(it.id, it.toPost)] k = none := by simp [lookup, hik]
          rw [hone, List.find?_cons_of_neg _ (by simp [hik])]
          simp

/-! ### Helper lemmas about the sort order -/

/-- Strict lexicographic `<` on key tuples: the Prop-level order the page
is claimed to realise (date first, then id, both by string comparison). -/
def keyLt (p q : String × String) : Prop :=
  p.1 < q.1 ∨ (p.1 = q.1 ∧ p.2 < q.2)

theorem keyLe_trans (p q r : String × String) :
    keyLe p q = true → keyLe q r = true → keyLe p r = true := by
  simp only [keyLe, Bool.or_eq_true, Bool.and_eq_true, decide_eq_true_eq, beq_iff_eq]
  rintro (h1 | ⟨e1, le1⟩) (h2 | ⟨e2, le2⟩)
  · exact Or.inl (lt_trans h1 h2)
  · exact Or.inl (e2 ▸ h1)
  · exact Or.inl (e1 ▸ h2)
  · exact Or.inr ⟨e1.trans e2, le_trans le1 le2⟩

theorem keyLe_total (p q : String × String) :
    (keyLe p q || keyLe q p) = true := by
  simp only [keyLe, Bool.or_eq_true, Bool.and_eq_true, decide_eq_true_eq, beq_iff_eq]
  rcases lt_trichotomy p.1 q.1 with h | h | h
  · exact Or.inl (Or.inl h)
  · rcases le_total p.2 q.2 with h2 | h2
    · exact Or.inl (Or.inr ⟨h, h2⟩)
    · exact Or.inr (Or.inr ⟨h.symm, h2⟩)
  · exact Or.inr (Or.inl h)

theorem keyLe_strict (p q : String × String) (h : keyLe p q = true) (hne : p.2 ≠ q.2) :
    keyLt p q := by
  simp only [keyLe, Bool.or_eq_true, Bool.and_eq_true, decide_eq_true_eq, beq_iff_eq] at h
  rcases h with h | ⟨he, hle⟩
  · exact Or.inl h
  · exact Or.inr ⟨he, lt_of_le_of_ne hle hne⟩

theorem descLe_trans (a b c : String × Post) :
    descLe a b → descLe b c → descLe a c := fun h1 h2 =>
  keyLe_trans (sort_key c) (sort_key b) (sort_key a) h2 h1

theorem descLe_total (a b : String × Post) :
    (descLe a b || descLe b a) = true :=
  keyLe_total (sort_key b) (sort_key a)

/-! ### Spec-side restatement of the Title Rewriter (for the refinement
claim): (a) drop only the first matching head string, found in priority
order; (b) append the suffix when the result is shorter than 15
characters; (c) apply the substring rules one after the other, each
replacing every occurrence when the substring is present. -/

def removeHeadSpec (title : String) : String :=
  match knownHeads.find? (fun p => title.startsWith p) with
  | some p => title.drop p.length
  | none => title

def applyRulesSpec : List (String × String) → String → String
  | [], s => s
  | kv :: rest, s =>
    applyRulesSpec rest (if containsStr s kv.1 then s.replace kv.1 kv.2 else s)

def clean_title_spec (title : String) : String :=
  let afterHead := removeHeadSpec title
  let sized := if afterHead.length < 15 then afterHead ++ " | AI 인사이트" else afterHead
  applyRulesSpec transformations sized

theorem removeFirstHead_eq_spec (ps : List String) (s : String) :
    removeFirstHead ps s =
      (match ps.find? (fun p => s.startsWith p) with
       | some p => s.drop p.length
       | none => s) := by
  induction ps with
  | nil => rfl
  | cons p ps ih =>
    cases h : s.startsWith p
    · rw [List.find?_cons_of_neg _ (by simp [h])]
      simpa [removeFirstHead, h] using ih
    · rw [List.find?_cons_of_pos _ (by simp [h])]
      simp [removeFirstHead, h]

theorem foldl_rules_eq_spec (rules : List (String × String)) (s : String) :
    rules.foldl (fun s kv => if containsStr s kv.1 then s.replace kv.1 kv.2 else s) s =
      applyRulesSpec rules s := by
  induction rules generalizing s with
  | nil => rfl
  | cons kv rest ih => simp [applyRulesSpec, ih]

/-- Reduction of the main entry point when the fetched content is truthy. -/
theorem runMain_some_eq (xml : String) (parse : String → List Item) (existing : Record)
    (h : xml ≠ "") :
    runMain (some xml) parse existing =
      { printedStart := true
        dataWrite := if (update_data existing (parse xml)).updated then
            some (update_data existing (parse xml)).posts else none
        htmlWrite := some (generate_html (update_data existing (parse xml)).posts)
        sitemapWrite := true
        printedAdded := (update_data existing (parse xml)).added
        printedCompletion := true } := by
  have hb : (xml == "") = false := by simpa using h
  simp [runMain, hb]

/-! ### The claims -/

/-- C1: merging a parsed feed item into an existing record inserts it, with
exactly the item's title, link, date and category, if and only if its
category equals the configured filter and its id is not yet a key; any
other item leaves the record unchanged, and entries already present are
never overwritten or removed by a merge. -/
theorem claim1_merge_insert_iff (posts : Record) (item : Item) :
    update_data posts [item] =
      (if item.category = CATEGORY_FILTER ∧ hasKey posts item.id = false then
        { posts := posts ++ [(item.id, item.toPost)]
          updated := true
          added := ["Added new post: " ++ item.title] }
      else { posts := posts, updated := false, added := [] }) ∧
    ∀ (items : List Item) (k : String) (v : Post),
      lookup posts k = some v → lookup (update_data posts items).posts k = some v := by
  constructor
  · by_cases hcat : item.category = CATEGORY_FILTER
    · cases hk : hasKey posts item.id with
      | true => simp [update_data, updateStep, beq_iff_eq.mpr hcat, hk, hcat]
      | false => simp [update_data, updateStep, beq_iff_eq.mpr hcat, hk, hcat]
    · have : (item.category == CATEGORY_FILTER) = false := by simpa using hcat
      simp [update_data, updateStep, this, hcat]
  · intro items k v hv
    rw [update_data, lookup_foldl_updateStep items _ k]
    simp only at hv ⊢
    rw [hv]
    simp

/-- Witness for C1 at a concrete record and item: a pre-existing entry
survives a merge untouched. -/
theorem claim1_merge_insert_iff_witness :
    lookup [("5", ({ title := "t", link := "l", date := "d", category := "AI Mind" } : Post))]
        "5" = some { title := "t", link := "l", date := "d", category := "AI Mind" } ∧
    lookup (update_data
        [("5", ({ title := "t", link := "l", date := "d", category := "AI Mind" } : Post))]
        [{ id := "7", title := "t7", link := "l7", category := "AI Mind", date := "d7" }]).posts
        "5" = some { title := "t", link := "l", date := "d", category := "AI Mind" } :=
  ⟨by decide,
   (claim1_merge_insert_iff
      [("5", { title := "t", link := "l", date := "d", category := "AI Mind" })]
      { id := "7", title := "t7", link := "l7", category := "AI Mind", date := "d7" }).2
     [{ id := "7", title := "t7", link := "l7", category := "AI Mind", date := "d7" }]
     "5" { title := "t", link := "l", date := "d", category := "AI Mind" } (by decide)⟩

/-- C2 counterexample: 204 is a 200-class status, yet the fetch yields no
result, refuting the claim that any 200-class status returns the body. -/
theorem claim2_counterexample :
    200 ≤ 204 ∧ 204 < 300 ∧ (fetch_rss 204 "feed-bytes").1 = none := by
  refine ⟨by decide, by decide, ?_⟩
  simp [fetch_rss]

/-- C2 (amended): the fetch returns the raw body exactly when the status
is 200; every other status — other 200-class statuses included — yields
no result with a printed diagnostic, and a failed fetch halts the run
with no record, page or sitemap write and no completion message. -/
theorem claim2_success_only_200 (status : Nat) (body : String)
    (parse : String → List Item) (existing : Record) :
    fetch_rss status body =
      (if status = 200 then (some body, [])
       else (none, ["Failed to fetch RSS: " ++ toString status])) ∧
    runMain none parse existing =
      { printedStart := true, dataWrite := none, htmlWrite := none,
        sitemapWrite := false, printedAdded := [], printedCompletion := false } := by
  refine ⟨?_, rfl⟩
  by_cases h : status = 200 <;> simp [fetch_rss, h]

set_option maxHeartbeats 1000000 in
/-- C4: the title rewriter removes only the first matching head string in
priority order, then appends the fixed suffix exactly when the length is
under 15 characters, then applies the substring rules in their fixed
order, each replacing all occurrences — the source function equals the
step-by-step restatement for every input. -/
theorem claim4_title_rewrite_order (t : String) : clean_title t = clean_title_spec t := by
  unfold clean_title clean_title_spec removeHeadSpec
  rw [foldl_rules_eq_spec, removeFirstHead_eq_spec]

/-- C5: the parser derives the id as the last `/`-segment of the link
truncated at the first `?`, rebuilds the canonical link from the fixed
base and author id, defaults an absent category to the empty string, and
reformats the publication date, falling back to the raw string; the
spec's example item yields exactly the stored Post it states. -/
theorem claim5_parser_fields :
    (∀ raw : RawItem,
      parse_item raw =
        { id := (pySplit ((pySplit raw.link "/").getLastD "") "?").headD ""
          title := raw.title
          link := "https://m.blog.naver.com/" ++ BLOG_ID ++ "/" ++
            ((pySplit ((pySplit raw.link "/").getLastD "") "?").headD "")
          category := raw.category.getD ""
          date :=
            match strptime_pub_date raw.pubDate with
            | some (y, m, d) => format_ymd y m d
            | none => raw.pubDate }) ∧
    parse_rss [{ title := "AI - 요약 노트",
                 link := "https://blog.naver.com/joecool00/224179736852?fromRss=true",
                 category := some "AI Mind",
                 pubDate := "Tue, 01 Jan 2025 10:00:00 +0900" }] =
      [{ id := "224179736852", title := "AI - 요약 노트",
         link := "https://m.blog.naver.com/joecool00/224179736852",
         category := "AI Mind", date := "2025-01-01" }] ∧
    (parse_item { title := "t", link := "https://blog.naver.com/joecool00/100",
                  category := none, pubDate := "not a timestamp" }).date = "not a timestamp" ∧
    (parse_item { title := "t", link := "https://blog.naver.com/joecool00/100",
                  category := none, pubDate := "not a timestamp" }).category = "" := by
  refine ⟨fun raw => rfl, by decide, by decide, rfl⟩

/-- C9: a successful fetch with an empty body is falsy in the main guard:
the run halts after the starting message with no parse, merge, render or
write, and no completion message — exactly as on fetch failure. -/
theorem claim9_empty_body_halts (parse : String → List Item) (existing : Record) :
    (fetch_rss 200 "").1 = some "" ∧
    runMain (some "") parse existing =
      { printedStart := true, dataWrite := none, htmlWrite := none,
        sitemapWrite := false, printedAdded := [], printedCompletion := false } := by
  refine ⟨by simp [fetch_rss], ?_⟩
  simp [runMain]

/-- C10: within one run, the value stored under a key is that of the first
feed item with that id passing the category filter (the record's previous
value taking priority over all of them); later duplicates change nothing
and print nothing, since each insertion appends exactly one entry and one
`Added new post` line.  The concrete conjunct shows a duplicated id in a
single feed keeping the first occurrence's fields. -/
theorem claim10_first_occurrence_wins (posts : Record) (items : List Item) :
    (∀ k : String,
      lookup (update_data posts items).posts k =
        (lookup posts k <|>
          (items.find? (fun it => it.id == k && it.category == CATEGORY_FILTER)).map
            Item.toPost)) ∧
    (∃ new : List (String × Post),
      (update_data posts items).posts = posts ++ new ∧
      (update_data posts items).added =
        new.map (fun e => "Added new post: " ++ e.2.title) ∧
      (update_data posts items).updated = !new.isEmpty) ∧
    update_data []
        [{ id := "10", title := "first", link := "l1", category := "AI Mind", date := "d1" },
         { id := "10", title := "second", link := "l2", category := "AI Mind", date := "d2" }] =
      { posts := [("10", { title := "first", link := "l1", date := "d1", category := "AI Mind" })]
        updated := true
        added := ["Added new post: first"] } := by
  refine ⟨fun k => lookup_foldl_updateStep items _ k, ?_, by decide⟩
  obtain ⟨new, h⟩ := foldl_updateStep_shape items ⟨posts, false, []⟩
  exact ⟨new, by simp [update_data, h], by simp [update_data, h], by simp [update_data, h]⟩

theorem forall₂_map_self {α β : Type} (l : List α) (f : α → β) (R : α → β → Prop)
    (h : ∀ e, R e (f e)) : List.Forall₂ R l (l.map f) := by
  induction l with
  | nil => exact List.Forall₂.nil
  | cons a t ih => exact List.Forall₂.cons (h a) ih

theorem generate_html_sortedEntries (posts : Record) :
    (generate_html posts).sortedEntries = posts.mergeSort descLe := rfl

theorem generate_html_cards (posts : Record) :
    (generate_html posts).cards = (posts.mergeSort descLe).map (fun e =>
      { date := e.2.date, displayTitle := clean_title e.2.title, link := e.2.link }) := rfl

theorem generate_html_jsonLd (posts : Record) :
    (generate_html posts).jsonLd = (posts.mergeSort descLe).map (fun e =>
      { headline := e.2.title, url := e.2.link,
        datePublished := if e.2.date == "Legacy Post" then "2024-01-01"
          else e.2.date }) := rfl

/-- C3: the page lists every record entry exactly once (a permutation of
the record), in strictly descending order of the key pair (date with
`Legacy Post` read as `2024-01-01`, then id), under string comparison —
a deterministic total order once the record's keys are distinct. -/
theorem claim3_page_order (posts : Record) (h : (posts.map Prod.fst).Nodup) :
    (generate_html posts).sortedEntries.Perm posts ∧
    (generate_html posts).cards.length = posts.length ∧
    (generate_html posts).sortedEntries.Pairwise
      (fun a b => keyLt (sort_key b) (sort_key a)) := by
  rw [generate_html_sortedEntries, generate_html_cards]
  have hperm : (posts.mergeSort descLe).Perm posts := List.mergeSort_perm posts descLe
  refine ⟨hperm, by simp, ?_⟩
  have hsorted : (posts.mergeSort descLe).Pairwise (fun a b => descLe a b = true) :=
    List.sorted_mergeSort descLe_trans descLe_total posts
  have hnodupS : ((posts.mergeSort descLe).map Prod.fst).Nodup :=
    ((hperm.map Prod.fst).nodup_iff).mpr h
  have hneq : (posts.mergeSort descLe).Pairwise (fun a b => a.1 ≠ b.1) :=
    List.pairwise_map.mp hnodupS
  exact (hsorted.and hneq).imp (fun hab => keyLe_strict _ _ hab.1 (Ne.symm hab.2))

/-- Witness for C3 on a two-entry record with distinct ids. -/
theorem claim3_page_order_witness :
    (([("2", ({ title := "t2", link := "l2", date := "2024-05-01", category := "AI Mind" } : Post)),
       ("1", ({ title := "t1", link := "l1", date := "Legacy Post", category := "AI Mind" } : Post))] :
        Record).map Prod.fst).Nodup ∧
    ((generate_html
        [("2", { title := "t2", link := "l2", date := "2024-05-01", category := "AI Mind" }),
         ("1", { title := "t1", link := "l1", date := "Legacy Post", category := "AI Mind" })]).sortedEntries.Perm
      [("2", { title := "t2", link := "l2", date := "2024-05-01", category := "AI Mind" }),
       ("1", { title := "t1", link := "l1", date := "Legacy Post", category := "AI Mind" })] ∧
     (generate_html
        [("2", { title := "t2", link := "l2", date := "2024-05-01", category := "AI Mind" }),
         ("1", { title := "t1", link := "l1", date := "Legacy Post", category := "AI Mind" })]).cards.length =
      ([("2", ({ title := "t2", link := "l2", date := "2024-05-01", category := "AI Mind" } : Post)),
        ("1", ({ title := "t1", link := "l1", date := "Legacy Post", category := "AI Mind" } : Post))] :
        Record).length ∧
     (generate_html
        [("2", { title := "t2", link := "l2", date := "2024-05-01", category := "AI Mind" }),
         ("1", { title := "t1", link := "l1", date := "Legacy Post", category := "AI Mind" })]).sortedEntries.Pairwise
      (fun a b => keyLt (sort_key b) (sort_key a))) :=
  ⟨by decide, claim3_page_order _ (by decide)⟩

/-- C6: whenever the run proceeds past the fetch (truthy content), the
record file is rewritten — with the full merged record — exactly when an
insertion occurred, while the page and the sitemap are regenerated
unconditionally from the resulting record. -/
theorem claim6_write_iff_insert (xml : String) (parse : String → List Item)
    (existing : Record) (h : xml ≠ "") :
    ((runMain (some xml) parse existing).dataWrite =
      if (update_data existing (parse xml)).updated then
        some (update_data existing (parse xml)).posts else none) ∧
    ((runMain (some xml) parse existing).dataWrite ≠ none ↔
      (update_data existing (parse xml)).posts ≠ existing) ∧
    (runMain (some xml) parse existing).htmlWrite =
      some (generate_html (update_data existing (parse xml)).posts) ∧
    (runMain (some xml) parse existing).sitemapWrite = true := by
  rw [runMain_some_eq xml parse existing h]
  refine ⟨rfl, ?_, rfl, rfl⟩
  obtain ⟨new, hs⟩ := foldl_updateStep_shape (parse xml) ⟨existing, false, []⟩
  have hu : update_data existing (parse xml) =
      { posts := existing ++ new, updated := !new.isEmpty,
        added := new.map (fun e => "Added new post: " ++ e.2.title) } := by
    simp only [update_data]
    rw [hs]
    simp
  rw [hu]
  cases new with
  | nil => simp
  | cons e rest => simp

/-- Witness for C6 at a truthy fetch with an empty feed. -/
theorem claim6_write_iff_insert_witness :
    ("x" : String) ≠ "" ∧
    (((runMain (some "x") (fun _ => ([] : List Item)) []).dataWrite =
       if (update_data [] ((fun _ : String => ([] : List Item)) "x")).updated then
         some (update_data [] ((fun _ : String => ([] : List Item)) "x")).posts
       else none) ∧
     ((runMain (some "x") (fun _ => ([] : List Item)) []).dataWrite ≠ none ↔
       (update_data [] ((fun _ : String => ([] : List Item)) "x")).posts ≠ ([] : Record)) ∧
     (runMain (some "x") (fun _ => ([] : List Item)) []).htmlWrite =
       some (generate_html (update_data [] ((fun _ : String => ([] : List Item)) "x")).posts) ∧
     (runMain (some "x") (fun _ => ([] : List Item)) []).sitemapWrite = true) :=
  ⟨by decide, claim6_write_iff_insert "x" (fun _ => []) [] (by decide)⟩

/-- C7: merging the same parsed items again into the record produced by a
first merge changes nothing — same record, no `updated` flag, no printed
additions — so the second run writes no record file; and the merged value
under any key is the pre-existing entry when there was one (a present
entry is never replaced by a later item with the same id). -/
theorem claim7_idempotent (posts : Record) (items : List Item) :
    update_data (update_data posts items).posts items =
      { posts := (update_data posts items).posts, updated := false, added := [] } ∧
    (runMain (some "feed") (fun _ => items) (update_data posts items).posts).dataWrite =
      none ∧
    ∀ k : String,
      lookup (update_data posts items).posts k =
        (lookup posts k <|>
          (items.find? (fun it => it.id == k && it.category == CATEGORY_FILTER)).map
            Item.toPost) := by
  have hidem : update_data (update_data posts items).posts items =
      { posts := (update_data posts items).posts, updated := false, added := [] } := by
    simp only [update_data]
    exact foldl_updateStep_noop items _ (fun it hm hc => hasKey_foldl_of_mem items _ it hm hc)
  refine ⟨hidem, ?_, fun k => lookup_foldl_updateStep items _ k⟩
  rw [runMain_some_eq _ _ _ (by decide : ("feed" : String) ≠ "")]
  simp [hidem]

/-- C8: rendering is a pure function of the record — the entries reaching
the page are exactly the stored ones (titles and dates unrewritten), the
card's display text is the rewritten title, and each structured-data
entry carries the original title with `2024-01-01` substituted for a
stored `Legacy Post` date only in the output. -/
theorem claim8_render_pure (posts : Record) :
    (generate_html posts).sortedEntries.Perm posts ∧
    List.Forall₂ (fun (e : String × Post) (c : Card) =>
        c = { date := e.2.date, displayTitle := clean_title e.2.title, link := e.2.link })
      (generate_html posts).sortedEntries (generate_html posts).cards ∧
    List.Forall₂ (fun (e : String × Post) (j : JsonLdItem) =>
        j = { headline := e.2.title, url := e.2.link,
              datePublished := if e.2.date = "Legacy Post" then "2024-01-01"
                else e.2.date })
      (generate_html posts).sortedEntries (generate_html posts).jsonLd := by
  rw [generate_html_sortedEntries, generate_html_cards, generate_html_jsonLd]
  refine ⟨List.mergeSort_perm posts descLe, ?_, ?_⟩
  · exact forall₂_map_self _ _ _ (fun e => rfl)
  · refine forall₂_map_self _ _ _ (fun e => ?_)
    by_cases hd : e.2.date = "Legacy Post" <;> simp [hd]

end SyncBlog
